import Mathlib

/-!
# Verification of `qutip.qip.device.processor.Processor`

Shallow embedding of `src/qutip/qip/device/processor.py` (the pulse/noise
assembly and evolution-dispatch engine) together with proofs settling the
frozen claims about it.

Modelling conventions:
* Python floats are modelled as rationals (`ℚ`); all the claims under test
  concern exact comparisons (tolerances, decimal quantisation) that are
  faithfully expressed over `ℚ`.
* Python exceptions are modelled by an explicit error type threaded through
  `Except`.
* The operator algebra (`qutip.Qobj`: tensor embedding, Hermiticity test,
  matrix exponential) is external to the file under `src/` and is treated as
  an opaque value type with opaque operations, exactly as the code does:
  every theorem quantifies over a bundle `Ext` of those operations.
* The classes `Pulse` and `Drift` and the functions `_fill_coeff` and
  `process_noise` live in `qutip/qip/pulse.py` / `qutip/qip/noise.py`, which
  are part of this repository but absent from `src/`; their data model is
  taken from the specification (see the individual doc comments).
-/

namespace QutipProc

/-- Python exception classes raised (or propagated) by the embedded code. -/
inductive PyError where
  | typeError (msg : String)
  | valueError (msg : String)
  | keyError (msg : String)
  | indexError (msg : String)
  | notImplementedError (msg : String)
  deriving Repr, DecidableEq

/-- Modelled from the spec: the three-way nature of a pulse coefficient
(`§3` / `§9`: absent, boolean constant, or numeric sequence).  The extra
constructor `func` stands for any other Python object a caller might store in
`Pulse.coeff` (a callable or symbolic coefficient): such an object is not a
sequence, so Python `len()` fails on it with a `TypeError`. -/
inductive Coeff where
  | off
  | const (b : Bool)
  | sampled (c : List ℚ)
  | func
  deriving Repr, DecidableEq

/-- Modelled from the spec: the `Pulse` data model of `qutip.qip.pulse`
(absent from `src/`), `§3`: an operator, target subsystem indices, an
optional time grid, a coefficient, an interpolation kind and an optional
label.  Only the fields read by `processor.py` are modelled. -/
structure Pulse (Op : Type) where
  qobj : Op
  targets : List ℤ
  tlist : Option (List ℚ) := none
  coeff : Coeff := Coeff.off
  spline_kind : String := "step_func"
  label : Option String := none
  deriving Repr, DecidableEq

/-- Modelled from the spec: one entry of a `Drift` collection
(`qutip.qip.pulse.Drift.drift_hamiltonians`, absent from `src/`), `§3`:
a time-independent (operator, target indices) pair. -/
structure DriftHam (Op : Type) where
  qobj : Op
  targets : List ℤ
  deriving Repr, DecidableEq

/-- The `Processor` state (`Processor.__init__`): subsystem count `N`,
pulse list, `t1`/`t2`, noise specifications, drift, per-subsystem
dimensions and the global interpolation kind.  The noise-specification
type `ν` is opaque: `processor.py` only stores noise objects and hands
them to the (external) noise pipeline. -/
structure Processor (Op ν : Type) where
  N : ℤ
  pulses : List (Pulse Op) := []
  t1 : Option ℚ := none
  t2 : Option ℚ := none
  noise : List ν := []
  drift : List (DriftHam Op) := []
  dims : List ℕ := []
  spline_kind : String := "step_func"
  deriving Repr, DecidableEq

/-- The external capabilities consumed by `processor.py` (spec `§6`):
the opaque operator algebra of `qutip.Qobj`, the per-pulse expansion
helpers of `qutip.qip.pulse`, the coefficient resampler `_fill_coeff`
(repository code not under `src/`), and the overridable
auxiliary-mode-elimination hook (identity on the base class, overridden
by specialisations). -/
structure Ext (Op : Type) where
  /-- `qobj.isherm`. -/
  isherm : Op → Bool
  /-- `len(qobj.dims[0])`. -/
  qdims0len : Op → ℕ
  /-- `Qobj` addition. -/
  add : Op → Op → Op
  /-- the additive unit (the Python literal `0` used to seed `sum` and
  `H_drift`). -/
  zero : Op
  /-- scalar times `Qobj` (`coeffs[m, n] * self.ctrls[m]`). -/
  smul : ℚ → Op → Op
  /-- `-1j * H * dt`: scaling by the negative imaginary unit and a time
  step. -/
  scaleNegIdt : Op → ℚ → Op
  /-- `qobj.expm()`: the matrix exponential. -/
  expm : Op → Op
  /-- `pulse.get_ideal_qobj(dims)`: the control operator expanded into the
  composite space. -/
  idealQobj : Pulse Op → List ℕ → Op
  /-- `drift_ham.get_qobj(dims)`: a drift term expanded into the composite
  space. -/
  driftQobj : DriftHam Op → List ℕ → Op
  /-- `_fill_coeff(coeff, tlist, full_tlist, args)` from `qutip.qip.pulse`
  (repository code absent from `src/`): resampling of a local coefficient
  sequence onto the canonical grid.  The `Bool` argument is the
  `_step_func_coeff` flag of the `args` dictionary. -/
  fillCoeff : List ℚ → List ℚ → List ℚ → Bool → List ℚ
  /-- `self.eliminate_auxillary_modes(U)`: identity on the base class,
  an overridable hook for specialisations. -/
  eliminateAux : Op → Op

/-! ## TimeGridMerger: `Processor.get_full_tlist` -/

/-- Insertion of one element into an ascending list (helper for the
embedding of `np.sort`). -/
def insertAsc (x : ℚ) : List ℚ → List ℚ
  | [] => [x]
  | y :: ys => if x ≤ y then x :: y :: ys else y :: insertAsc x ys

/-- Embedding of `np.sort`: an ascending sort of the concatenated grids
(the sorting algorithm itself is irrelevant; only the ascending result
matters). -/
def pySort (l : List ℚ) : List ℚ := l.foldr insertAsc []

/-- Removal of equal adjacent entries from a sorted list (the deduplication
performed by `np.unique` on sorted input). -/
def dedupAdj : List ℚ → List ℚ
  | [] => []
  | [x] => [x]
  | x :: y :: r => if x = y then dedupAdj (y :: r) else x :: dedupAdj (y :: r)

/-- Embedding of `np.unique(np.sort(np.hstack(full_tlist)))`: ascending
order with exact duplicates removed. -/
def npUnique (l : List ℚ) : List ℚ := dedupAdj (pySort l)

/-- Embedding of
`np.concatenate((full_tlist[:1], full_tlist[1:][np.diff(full_tlist) > tol]))`:
the first point is kept, and a later point is kept exactly when its gap to
its immediate predecessor in the input list exceeds `tol`.  The `zip` of the
tail with the list itself mirrors `np.diff`. -/
def diffMaskKeep (tol : ℚ) : List ℚ → List ℚ
  | [] => []
  | x :: xs => x :: ((xs.zip (x :: xs)).filter (fun p => tol < p.1 - p.2)).map (fun p => p.1)

/-- Embedding of `Processor.get_full_tlist(tol=1.0e-10)`: collect the grids
of all pulses that have one; `None` if there are none; otherwise the sorted
union with near-duplicate adjacent points collapsed.  The Python default for
`tol` is `1.0e-10`. -/
def get_full_tlist {Op ν : Type} (proc : Processor Op ν) (tol : ℚ) : Option (List ℚ) :=
  let grids := proc.pulses.filterMap Pulse.tlist
  if grids.isEmpty then none
  else some (diffMaskKeep tol (npUnique grids.flatten))

/-- Recursive reformulation of the tolerance collapse actually performed by
the code: a point is dropped when its gap to the immediately preceding point
of the sorted union (kept or dropped) is at most `tol`; the comparison point
always advances to the current element. -/
def adjKeep (tol : ℚ) (prev : ℚ) : List ℚ → List ℚ
  | [] => []
  | y :: ys => if tol < y - prev then y :: adjKeep tol y ys else adjKeep tol y ys

/-- Recursive reformulation of the whole collapse (see `adjKeep`). -/
def adjCollapse (tol : ℚ) : List ℚ → List ℚ
  | [] => []
  | x :: xs => x :: adjKeep tol x xs

/-- The merge the claim describes, following its words: after the sorted
union, a point is dropped when its gap to the previous RETAINED point is at
or below the tolerance (so the comparison point only advances on retained
points). -/
def retainedKeep (tol : ℚ) (last : ℚ) : List ℚ → List ℚ
  | [] => []
  | y :: ys => if tol < y - last then y :: retainedKeep tol y ys else retainedKeep tol last ys

/-- The claimed merge (see `retainedKeep`): sorted union, then collapse
relative to the previous retained point. -/
def specRetainedMerge (tol : ℚ) (grids : List (List ℚ)) : List ℚ :=
  match npUnique grids.flatten with
  | [] => []
  | x :: xs => x :: retainedKeep tol x xs

/-! ## Validator: `Processor._is_pulses_valid` -/

/-- The message of the missing-grid validation error
(`"Pulse id={} is invalid. Please define a tlist for the pulse."`). -/
def tlistMsg (i : ℕ) : String :=
  "Pulse id=" ++ toString i ++ " is invalid. Please define a tlist for the pulse."

/-- The message of the `step_func` length validation error. -/
def stepMsg (i : ℕ) : String :=
  "The length of tlist and coeff of the pulse labelled " ++ toString i ++
    " is invalid. It\x27s either len(tlist)=len(coeff) or len(tlist)-1=len(coeff) " ++
    "for coefficients as step function"

/-- The message of the non-`step_func` length validation error. -/
def otherKindMsg (i : ℕ) : String :=
  "The length of tlist and coeff of the pulse labelled " ++ toString i ++
    " is invalid. It should be either len(tlist)=len(coeff)"

/-- The `TypeError` Python raises for `len(x)` on an object without a
length (such as a callable or symbolic coefficient). -/
def noLenMsg : String := "object has no len()"

/-- The loop body of `Processor._is_pulses_valid`, carried out over the
pulse list with the running index `i` of `enumerate`.  A pulse whose
coefficient is absent or boolean is skipped; otherwise the grid must be
present, and `coeff_len = len(pulse.coeff)` is compared with the grid
length according to the interpolation kind.  Taking `len` of a
non-sequence coefficient (`Coeff.func`) raises a `TypeError`.  The
source's second check (`tlist` present and `coeff` absent) is dead code:
an absent coefficient was already skipped. -/
def _is_pulses_valid_aux {Op : Type} : List (Pulse Op) → ℕ → Except PyError Bool
  | [], _ => .ok true
  | p :: ps, i =>
    match p.coeff with
    | .off => _is_pulses_valid_aux ps (i + 1)
    | .const _ => _is_pulses_valid_aux ps (i + 1)
    | .func =>
      match p.tlist with
      | none => .error (.valueError (tlistMsg i))
      | some _ => .error (.typeError noLenMsg)
    | .sampled c =>
      match p.tlist with
      | none => .error (.valueError (tlistMsg i))
      | some tl =>
        if p.spline_kind = "step_func" then
          if c.length = tl.length - 1 ∨ c.length = tl.length then
            _is_pulses_valid_aux ps (i + 1)
          else .error (.valueError (stepMsg i))
        else
          if c.length = tl.length then _is_pulses_valid_aux ps (i + 1)
          else .error (.valueError (otherKindMsg i))

/-- Embedding of `Processor._is_pulses_valid`. -/
def _is_pulses_valid {Op ν : Type} (proc : Processor Op ν) : Except PyError Bool :=
  _is_pulses_valid_aux proc.pulses 0

/-! ## CoefficientResampler: `Processor.get_full_coeffs` -/

/-- Python `len(full_tlist)` where `full_tlist` may be `None`
(`np.zeros(len(full_tlist))` with no canonical grid raises a
`TypeError`). -/
def pyLen (ft : Option (List ℚ)) : Except PyError ℕ :=
  match ft with
  | none => .error (.typeError "object of type NoneType has no len()")
  | some l => .ok l.length

/-- The value `np.array((0, 0), dtype=float)` returned by
`get_full_coeffs` when the pulse list is empty is the one-dimensional
array `[0., 0.]`, not a coefficient matrix; `pair00` records it
faithfully next to the matrix case. -/
inductive CoeffsArr where
  | pair00
  | mat (rows : List (List ℚ))
  deriving Repr, DecidableEq

/-- One iteration of the `get_full_coeffs` loop for a single pulse:
grid-and-coefficient absent gives a zero row; a coefficient that is
neither boolean nor a NumPy array is rejected with a `ValueError`; a
boolean gives an all-ones or all-zero row; a numeric array is resampled
with `_fill_coeff` according to the interpolation kind (the `Bool` flag
is the `_step_func_coeff` entry of the `args` dictionary).  When the
canonical grid is `None`, the `len(full_tlist)` calls raise; for the
numeric case `_fill_coeff` receives the `None` grid and fails inside
external code, modelled as the same `TypeError`. -/
def fullCoeffRow {Op : Type} (ext : Ext Op) (sk : String) (ft : Option (List ℚ))
    (p : Pulse Op) : Except PyError (List ℚ) :=
  if p.tlist = none ∧ p.coeff = Coeff.off then do
    let n ← pyLen ft
    .ok (List.replicate n 0)
  else
    match p.coeff with
    | .const b => do
      let n ← pyLen ft
      .ok (List.replicate n (if b then 1 else 0))
    | .sampled c =>
      match ft with
      | none => .error (.typeError "object of type NoneType has no len()")
      | some full =>
        if sk = "step_func" then .ok (ext.fillCoeff c (p.tlist.getD []) full true)
        else if sk = "cubic" then .ok (ext.fillCoeff c (p.tlist.getD []) full false)
        else .error (.valueError "Unknown spline kind.")
    | _ => .error (.valueError "get_full_coeffs only works for NumPy array or bool coeff.")

/-- The `get_full_coeffs` loop over the pulse list, collecting one row per
pulse. -/
def rowsMap {Op : Type} (ext : Ext Op) (sk : String) (ft : Option (List ℚ)) :
    List (Pulse Op) → Except PyError (List (List ℚ))
  | [] => .ok []
  | p :: ps => do
    let r ← fullCoeffRow ext sk ft p
    let rs ← rowsMap ext sk ft ps
    .ok (r :: rs)

/-- Embedding of `Processor.get_full_coeffs(full_tlist=None)`: validate,
return `np.array((0, 0))` when there are no pulses, default the canonical
grid to `get_full_tlist()` (with its default tolerance `1.0e-10`), then
resample every pulse. -/
def get_full_coeffs {Op ν : Type} (ext : Ext Op) (proc : Processor Op ν)
    (ftArg : Option (List ℚ)) : Except PyError CoeffsArr := do
  let _ ← _is_pulses_valid proc
  if proc.pulses.isEmpty then return CoeffsArr.pair00
  let ft : Option (List ℚ) :=
    match ftArg with
    | some f => some f
    | none => get_full_tlist proc (1 / 10000000000)
  let rows ← rowsMap ext proc.spline_kind ft proc.pulses
  return CoeffsArr.mat rows

/-! ## `Processor.add_control` -/

/-- Python `str` of an int list, for example `str([0, 1]) = "[0, 1]"`. -/
def pyStrIntList (l : List ℤ) : String :=
  "[" ++ String.intercalate ", " (l.map toString) ++ "]"

/-- Embedding of `Processor.add_control(qobj, targets, cyclic_permutation,
label)`.  The `isinstance(qobj, Qobj)` check cannot fail in the typed
embedding; a non-Hermitian operator is rejected; a missing target list
defaults to `range(len(qobj.dims[0]))`.  With `cyclic_permutation` the
term is replicated over all `N` cyclic rotations of the targets modulo
`N` (`Int.emod` agrees with the Python `%` for the positive modulus
used).  In the cyclic branch the source computes a target-suffixed label
and then immediately overwrites it with the plain label (a dead store,
kept here as the unused binding). -/
def add_control {Op ν : Type} (ext : Ext Op) (proc : Processor Op ν) (q : Op)
    (targetsArg : Option (List ℤ)) (cyclic_permutation : Bool)
    (label : Option String) : Except PyError (Processor Op ν) :=
  if ext.isherm q = false then
    .error (.valueError "The control Hamiltonian must be Hermitian.")
  else
    let targets : List ℤ :=
      match targetsArg with
      | none => (List.range (ext.qdims0len q)).map Int.ofNat
      | some ts => ts
    if cyclic_permutation then
      .ok { proc with
        pulses := proc.pulses ++ (List.range proc.N.toNat).map (fun i =>
          let temp_targets := targets.map (fun t => (t + Int.ofNat i) % proc.N)
          let _dead := label.map (fun lab => lab ++ "_" ++ pyStrIntList temp_targets)
          let temp_label := label
          { qobj := q, targets := temp_targets, tlist := none,
            coeff := Coeff.off, spline_kind := proc.spline_kind,
            label := temp_label }) }
    else
      .ok { proc with
        pulses := proc.pulses ++
          [{ qobj := q, targets := targets, tlist := none, coeff := Coeff.off,
             spline_kind := proc.spline_kind, label := label }] }

/-! ## `Processor.remove_pulse` -/

/-- Python `del l[i]` for an int index: non-negative indices delete in
place, negative indices count from the end, anything else raises an
`IndexError`. -/
def pyDelAt {α : Type} (l : List α) (i : ℤ) : Except PyError (List α) :=
  if 0 ≤ i ∧ i < (l.length : ℤ) then .ok (l.eraseIdx i.toNat)
  else if -(l.length : ℤ) ≤ i ∧ i < 0 then .ok (l.eraseIdx (l.length - (-i).toNat))
  else .error (.indexError "list assignment index out of range")

/-- Descending insertion (helper for `indices.sort(reverse=True)`). -/
def insertDesc (x : ℤ) : List ℤ → List ℤ
  | [] => [x]
  | y :: ys => if y ≤ x then x :: y :: ys else y :: insertDesc x ys

/-- Embedding of `indices.sort(reverse=True)`. -/
def sortDesc (l : List ℤ) : List ℤ := l.foldr insertDesc []

/-- The label branch of `remove_pulse`:
`for ind, pulse in enumerate(self.pulses): if pulse.label == label: del self.pulses[ind]`.
This iterates over the very list it deletes from.  A Python list
iterator keeps a cursor: it yields `l[cursor]` and then advances the
cursor, so after `del l[ind]` (with `ind` the position just yielded) the
element shifted into position `ind` is never examined.  The recursion
below carries the cursor explicitly and terminates because the cursor
strictly grows while the list never grows. -/
def removeLabelAux {Op : Type} (l : List (Pulse Op)) (cursor : ℕ)
    (lab : Option String) : List (Pulse Op) :=
  if h : cursor < l.length then
    if (l.get ⟨cursor, h⟩).label = lab then
      removeLabelAux (l.eraseIdx cursor) (cursor + 1) lab
    else
      removeLabelAux l (cursor + 1) lab
  else l
termination_by l.length - cursor
decreasing_by
  · simp only [List.length_eraseIdx, h, if_true]
    omega
  · omega

/-- Embedding of `Processor.remove_pulse(indices=None, label=None)`.  A
single non-iterable index is wrapped into a one-element list by the
source before this point, so indices arrive as a list.  Index-based
removal sorts the indices in descending order and deletes them one by
one; otherwise the label branch runs. -/
def remove_pulse {Op ν : Type} (proc : Processor Op ν)
    (indices : Option (List ℤ)) (label : Option String) :
    Except PyError (Processor Op ν) :=
  match indices with
  | some idxs => do
    let ps ← (sortDesc idxs).foldlM pyDelAt proc.pulses
    .ok { proc with pulses := ps }
  | none => .ok { proc with pulses := removeLabelAux proc.pulses 0 label }

/-! ## `Processor.set_all_tlist`, the `coeffs` setter and property -/

/-- Embedding of `Processor.set_all_tlist` for an array argument: an
`np.ndarray` is not a Python `list`, so the `isinstance(tlist, list)`
test fails and the same grid is broadcast to every pulse.  (The
per-pulse branch for a Python list of grids is not exercised by any
claim and is not modelled.) -/
def set_all_tlist {Op ν : Type} (proc : Processor Op ν) (tl : List ℚ) :
    Processor Op ν :=
  { proc with pulses := proc.pulses.map (fun p => { p with tlist := some tl }) }

/-- The `coeffs` setter:
`for i, coeff in enumerate(coeffs_list): self.pulses[i].coeff = coeff`.
More rows than pulses raises an `IndexError` on `self.pulses[i]`; fewer
rows leave the remaining pulses untouched. -/
def assignCoeffs {Op : Type} : List (Pulse Op) → List (List ℚ) →
    Except PyError (List (Pulse Op))
  | ps, [] => .ok ps
  | [], _ :: _ => .error (.indexError "list index out of range")
  | p :: ps, r :: rs => do
    let rest ← assignCoeffs ps rs
    .ok ({ p with coeff := Coeff.sampled r } :: rest)

/-- The `coeffs` property: `None` when there are no pulses, otherwise the
list of the pulse coefficients. -/
def coeffsProp {Op ν : Type} (proc : Processor Op ν) : Option (List Coeff) :=
  if proc.pulses.isEmpty then none else some (proc.pulses.map Pulse.coeff)

/-! ## Coefficient persistence: `save_coeff` / `read_coeff` -/

/-- Transposition of a rectangular matrix (NumPy `.T` on a 2-D array):
entry `(j, p)` of the result is entry `(p, j)` of the input.  All the
matrices this is applied to are rectangular, so the default value is
never read. -/
def transposeMat (rows : List (List ℚ)) : List (List ℚ) :=
  (List.range (rows.headD []).length).map (fun j => rows.map (fun r => r.getD j 0))

/-- The effect of writing one value with the `np.savetxt` format
`%1.16f` (fixed point with 16 fractional digits): rounding to the
nearest multiple of `1e-16`. -/
def quantize16 (q : ℚ) : ℚ := ((round (q * 10 ^ 16) : ℤ) : ℚ) / 10 ^ 16

/-- Embedding of `Processor.save_coeff(file_name, inctime)`.  The file is
modelled as the written matrix, one inner list per line, every value
quantised by the `%1.16f` format.  With no pulses `get_full_coeffs`
returns the one-dimensional pair `[0., 0.]`: its transpose is itself, so
`shp[1]` raises an `IndexError` in the `inctime` branch, and the
`inctime=False` branch writes one value per line.  With `inctime` the
first column receives `get_full_tlist()`; a `None` grid cannot be cast
to float, and a length mismatch cannot broadcast. -/
def save_coeff {Op ν : Type} (ext : Ext Op) (proc : Processor Op ν)
    (inctime : Bool) : Except PyError (List (List ℚ)) := do
  let _ ← _is_pulses_valid proc
  let coeffs ← get_full_coeffs ext proc none
  match coeffs with
  | .pair00 =>
    if inctime then .error (.indexError "tuple index out of range")
    else .ok [[0], [0]]
  | .mat rows =>
    let dataT := transposeMat rows
    if inctime then
      match get_full_tlist proc (1 / 10000000000) with
      | none => .error (.typeError "float() argument must be a string or a number, not NoneType")
      | some t =>
        if t.length = dataT.length then
          .ok (((t.zip dataT).map (fun p => p.1 :: p.2)).map (List.map quantize16))
        else .error (.valueError "could not broadcast input array")
    else .ok (dataT.map (List.map quantize16))

/-- The first component of the pair returned by `read_coeff` with
`inctime=True`.  The source line is `return self.get_full_tlist, self.coeffs`:
`self.get_full_tlist` lacks the call parentheses, so the bound method
object itself is returned, not the time list the docstring promises.
The `timeList` constructor exists only to state what the docstring
promised; the embedding never produces it. -/
inductive ReadFst where
  | boundMethodGetFullTlist
  | timeList (l : List ℚ)
  deriving Repr, DecidableEq

/-- The value returned by `read_coeff`: the `coeffs` property alone
(`inctime=False`) or the pair described at `ReadFst`. -/
inductive ReadRet where
  | coeffsOnly (cs : Option (List Coeff))
  | withTime (fst : ReadFst) (cs : Option (List Coeff))
  deriving Repr, DecidableEq

/-- Embedding of `Processor.read_coeff(file_name, inctime)`: load the
matrix, and either assign all columns as coefficients, or peel the first
column off as the time list (broadcast to every pulse by
`set_all_tlist`) and assign the rest. -/
def read_coeff {Op ν : Type} (proc : Processor Op ν) (data : List (List ℚ))
    (inctime : Bool) : Except PyError (Processor Op ν × ReadRet) :=
  if inctime = false then do
    let ps ← assignCoeffs proc.pulses (transposeMat data)
    let proc1 : Processor Op ν := { proc with pulses := ps }
    .ok (proc1, ReadRet.coeffsOnly (coeffsProp proc1))
  else do
    let tl := data.map (fun r => r.headD 0)
    let proc1 := set_all_tlist proc tl
    let ps ← assignCoeffs proc1.pulses (transposeMat (data.map List.tail))
    let proc2 : Processor Op ν := { proc1 with pulses := ps }
    .ok (proc2, ReadRet.withTime ReadFst.boundMethodGetFullTlist (coeffsProp proc2))

/-! ## AnalyticalEvaluator: `Processor.run_analytically` -/

/-- The `ctrls` property: every pulse's operator expanded into the
composite space. -/
def ctrls {Op ν : Type} (ext : Ext Op) (proc : Processor Op ν) : List Op :=
  proc.pulses.map (fun p => ext.idealQobj p proc.dims)

/-- The drift accumulation of `run_analytically`: `H_drift = 0` followed
by `H_drift += drift_ham.get_qobj(self.dims)` over the drift entries. -/
def driftSum {Op ν : Type} (ext : Ext Op) (proc : Processor Op ν) : Op :=
  proc.drift.foldl (fun acc d => ext.add acc (ext.driftQobj d proc.dims)) ext.zero

/-- The Python `sum` of the scaled control list:
`sum([coeffs[m, n] * self.ctrls[m] for m in range(len(self.ctrls))])`,
a left fold starting from the integer `0`. -/
def sumSMul {Op : Type} (ext : Ext Op) (f : ℕ → ℚ) (cl : List Op) : Op :=
  cl.enum.foldl (fun acc ic => ext.add acc (ext.smul (f ic.1) ic.2)) ext.zero

/-- NumPy indexing `coeffs[m, n]` into the result of `get_full_coeffs`.
The `pair00` case never gets indexed: it arises only when there are no
pulses, and then `range(len(self.ctrls))` is empty. -/
def CoeffsArr.entry : CoeffsArr → ℕ → ℕ → ℚ
  | .mat rows, m, n => (rows.getD m []).getD n 0
  | .pair00, _, _ => 0

/-- Embedding of `Processor.run_analytically(init_state=None)`: seed the
list with the initial state when given; fetch the canonical grid and the
resampled coefficient matrix; for each adjacent pair of grid points form
the instantaneous generator (drift plus coefficient-scaled controls,
with the coefficient taken at the left endpoint), exponentiate
`-1j * H * dt`, pass it through the auxiliary-mode-elimination hook and
append.  When no pulse has a grid, `range(len(tlist) - 1)` takes `len`
of `None` and raises a `TypeError`.  The trailing global-phase block of
the source probes `self.correct_global_phase`, an attribute only
`ModelProcessor` subclasses define; on the base class embedded here the
probe raises `AttributeError` and is swallowed, so it contributes
nothing. -/
def run_analytically {Op ν : Type} (ext : Ext Op) (proc : Processor Op ν)
    (init_state : Option Op) : Except PyError (List Op) := do
  let U0 : List Op := match init_state with | some s => [s] | none => []
  let tlist := get_full_tlist proc (1 / 10000000000)
  let coeffs ← get_full_coeffs ext proc none
  let Hdrift := driftSum ext proc
  match tlist with
  | none => .error (.typeError "object of type NoneType has no len()")
  | some tl =>
    let cl := ctrls ext proc
    let step : ℕ → Op := fun n =>
      let H := ext.add Hdrift (sumSMul ext (fun m => coeffs.entry m n) cl)
      let dt := tl.getD (n + 1) 0 - tl.getD n 0
      ext.eliminateAux (ext.expm (ext.scaleNegIdt H dt))
    .ok (U0 ++ (List.range (tl.length - 1)).map step)

/-! ## `Processor.run_state` -/

/-- The two shapes `run_state` can return: the propagator list of the
analytical path, or the result object of one of the external solvers
(`mesolve` / `mcsolve`), opaque here of type `σ`. -/
inductive RunRet (Op σ : Type) where
  | props (l : List Op)
  | solverResult (r : σ)

/-- Embedding of `Processor.run_state`.  Keyword arguments are modelled
by their key list: the embedded checks only test emptiness and
membership of `"H"`/`"tlist"`.  The deprecation warning for `states` is
non-fatal and has no control-flow effect.  On the analytical path with
options or configured noise the source executes
`raise warnings.warn(...)`; `warnings.warn` returns `None`, and
`raise None` is a `TypeError` (`exceptions must derive from
BaseException`), so the call errors out either way.  The non-analytical
path (`get_qobjevo` assembly plus the external `mesolve`/`mcsolve`
dispatch, spec `§1` out-of-scope solvers) is the opaque parameter
`numericalRun`. -/
def run_state {Op ν σ : Type} (ext : Ext Op)
    (numericalRun : Processor Op ν → Bool → String → List String → Option Op →
      Except PyError (RunRet Op σ))
    (proc : Processor Op ν) (init_state : Option Op) (analytical : Bool)
    (states : Option Op) (noisy : Bool) (solver : String)
    (kwargs : List String) : Except PyError (RunRet Op σ) :=
  if init_state.isNone && states.isNone then
    .error (.valueError "Qubit state not defined.")
  else
    let init := match init_state with | some s => some s | none => states
    if analytical then
      if kwargs.isEmpty = false ∨ proc.noise.isEmpty = false then
        .error (.typeError "exceptions must derive from BaseException")
      else (run_analytically ext proc init).map RunRet.props
    else
      if "H" ∈ kwargs ∨ "tlist" ∈ kwargs then
        .error (.valueError ("H and tlist are already specified by the processor " ++
          "and can not be given as a keyword argument"))
      else numericalRun proc noisy solver kwargs init

/-! ## `Processor.get_noisy_pulses` with explicit object identity

The frame claim about `get_noisy_pulses` is about Python object identity
and in-place mutation, so for it the heap is made explicit: a `Store` is
an arena of `Pulse` objects and a position in it is an object identity.
The method body is
`pulses = deepcopy(self.pulses); noisy_pulses = process_noise(pulses, ...)`,
optionally followed by appending `self.drift`; `deepcopy` allocates
fresh objects, and `process_noise` receives only those. -/

instance {Op : Type} [Inhabited Op] : Inhabited (Pulse Op) :=
  ⟨{ qobj := default, targets := [] }⟩

/-- An arena of `Pulse` objects: the Python heap restricted to pulses.
An index into the arena is an object identity. -/
abbrev Store (Op : Type) := List (Pulse Op)

/-- The processor state relevant to the frame claim: the identities of
its stored pulses and of its `Drift` object.  (In Python the drift is an
object of a different class, so its identity never coincides with a
pulse identity; the theorem carries that as a hypothesis.) -/
structure RefProcessor where
  pulseRefs : List ℕ
  driftRef : ℕ
  deriving Repr, DecidableEq

/-- `copy.deepcopy(self.pulses)`: allocate a fresh object for every
stored pulse (fresh identities at the end of the arena) holding a copy
of its value. -/
def deepcopyRefs {Op : Type} [Inhabited Op] (s : Store Op) (refs : List ℕ) :
    Store Op × List ℕ :=
  (s ++ refs.map (fun i => s.getD i default), List.range' s.length refs.length)

/-- Modelled from the spec (`§4.4`) and Python reachability:
`process_noise` (in `qutip.qip.noise`, repository code absent from
`src/`) receives a pulse list, the noise specification, dims, `t1`/`t2`
and the device-noise flag, and returns an augmented pulse list.  As a
Python callee it can read and mutate the objects handed to it and
allocate new ones, but it cannot reach arena entries it was not given:
entries outside `ids` are left unchanged, the arena never shrinks, and
every returned identity is an argument or a fresh allocation. -/
def NoiseFrame {Op : Type} [Inhabited Op]
    (f : Store Op → List ℕ → Bool → Store Op × List ℕ) : Prop :=
  ∀ s ids dn,
    s.length ≤ (f s ids dn).1.length ∧
    (∀ j, j < s.length → j ∉ ids →
      (f s ids dn).1.getD j default = s.getD j default) ∧
    (∀ o ∈ (f s ids dn).2, o ∈ ids ∨ s.length ≤ o)

/-- Embedding of `Processor.get_noisy_pulses(device_noise, drift)` over
the explicit arena: deep-copy the stored pulses, run the noise pipeline
on the copies, and append the drift object when requested.  The
processor record itself is never written to. -/
def get_noisy_pulses {Op : Type} [Inhabited Op] (s : Store Op)
    (proc : RefProcessor)
    (processNoise : Store Op → List ℕ → Bool → Store Op × List ℕ)
    (device_noise drift : Bool) : Store Op × List ℕ :=
  let copied := deepcopyRefs s proc.pulseRefs
  let noisy := processNoise copied.1 copied.2 device_noise
  (noisy.1, noisy.2 ++ if drift then [proc.driftRef] else [])

/-! ## Statement-side helpers -/

/-- The numeric payload of a coefficient (empty for the non-numeric
constructors). -/
def sampledList : Coeff → List ℚ
  | .sampled l => l
  | _ => []

/-- The resampled coefficient matrix as the claims describe it: one row
per pulse, each row the output of `_fill_coeff` on the pulse's local
data over the canonical grid `u`, with the step-function flag exactly
when the processor kind is `step_func`. -/
def resampledRows {Op ν : Type} (ext : Ext Op) (proc : Processor Op ν)
    (u : List ℚ) : List (List ℚ) :=
  proc.pulses.map (fun p =>
    ext.fillCoeff (sampledList p.coeff) (p.tlist.getD []) u
      (decide (proc.spline_kind = "step_func")))

/-- The `n`-th step propagator as the claims describe it:
`eliminate_auxillary_modes(expm(-1j * G_n * (t_{n+1} - t_n)))` with
`G_n = Drift + Σ_m rows[m][n] · ctrls[m]`, the coefficient taken at the
left endpoint `t_n`. -/
def analyticStep {Op ν : Type} (ext : Ext Op) (proc : Processor Op ν)
    (u : List ℚ) (rows : List (List ℚ)) (n : ℕ) : Op :=
  ext.eliminateAux (ext.expm (ext.scaleNegIdt
    (ext.add (driftSum ext proc)
      (sumSMul ext (fun m => (rows.getD m []).getD n 0) (ctrls ext proc)))
    (u.getD (n + 1) 0 - u.getD n 0)))

/-- The acceptance predicate actually enforced by the validator loop on
one pulse: constant pulses always pass; an unsized coefficient never
passes; a numeric coefficient needs a grid and the kind-dependent length
relationship (the non-`step_func` branch of the source covers every
other kind string). -/
def codeShapeOk {Op : Type} (p : Pulse Op) : Bool :=
  match p.coeff with
  | .off => true
  | .const _ => true
  | .func => false
  | .sampled c =>
    match p.tlist with
    | none => false
    | some tl =>
      if p.spline_kind = "step_func" then
        decide (c.length = tl.length - 1 ∨ c.length = tl.length)
      else decide (c.length = tl.length)

/-- The acceptance predicate as the claim words it: skip absent/boolean;
`step_func` allows coefficient length `len(grid) - 1` or `len(grid)`;
`cubic` demands exactly `len(grid)`.  Pulses outside the claim's scope
(unsized coefficients, other kind strings) are excluded by the theorem's
hypotheses and marked accepted here. -/
def claimShapeOk {Op : Type} (p : Pulse Op) : Bool :=
  match p.coeff with
  | .off => true
  | .const _ => true
  | .func => true
  | .sampled c =>
    match p.tlist with
    | none => false
    | some tl =>
      if p.spline_kind = "step_func" then
        decide (c.length = tl.length - 1 ∨ c.length = tl.length)
      else if p.spline_kind = "cubic" then decide (c.length = tl.length)
      else true

/-- The validation error message produced for an offending numeric-coefficient
pulse at position `i`: the missing-grid message when it has no grid, otherwise
the kind-specific length message.  Every variant embeds the position `i`. -/
def sampledViolationMsg {Op : Type} (p : Pulse Op) (i : ℕ) : String :=
  match p.tlist with
  | none => tlistMsg i
  | some _ => if p.spline_kind = "step_func" then stepMsg i else otherKindMsg i

/-- The row `get_full_coeffs` produces for one in-scope pulse over the
canonical grid `u`: an all-zero vector for an absent grid-and-coefficient,
an all-ones (`true`) or all-zero (`false`) vector for a boolean constant,
and the `_fill_coeff` resampling for a numeric coefficient. -/
def idealRow {Op : Type} (ext : Ext Op) (sk : String) (u : List ℚ)
    (p : Pulse Op) : List ℚ :=
  match p.coeff with
  | .off => List.replicate u.length 0
  | .const b => List.replicate u.length (if b then 1 else 0)
  | .sampled c => ext.fillCoeff c (p.tlist.getD []) u (decide (sk = "step_func"))
  | .func => []

/-- Elementwise absolute-error comparison of two rational vectors. -/
def withinTol (a b : List ℚ) (tol : ℚ) : Bool :=
  (a.length == b.length) && (a.zip b).all (fun p => decide (|p.1 - p.2| ≤ tol))

/-- Boolean test distinguishing a raised `TypeError` from every other
outcome. -/
def isTypeErr {α : Type} : Except PyError α → Bool
  | .error (.typeError _) => true
  | _ => false

/-! ## Concrete instances for witnesses and counterexamples -/

/-- A concrete instantiation of the opaque operator algebra over `ℤ`,
with deliberately non-degenerate operations, used to evaluate the
embedding on explicit inputs. -/
def extZ : Ext ℤ where
  isherm _ := true
  qdims0len _ := 2
  add x y := x + y
  zero := 0
  smul q x := q.num * x
  scaleNegIdt x dt := x * 3 + dt.num
  expm x := x * 5 + 1
  idealQobj p _ := p.qobj
  driftQobj d _ := d.qobj
  fillCoeff c _t f _b := f.map (fun _ => c.headD 0)
  eliminateAux x := x + 7

/-- A pulse labelled `"x"`. -/
def pX : Pulse ℤ := { qobj := 1, targets := [0], label := some "x" }

/-- A processor holding two pulses both labelled `"x"` (the failing
input of the label-removal claim). -/
def procC6 : Processor ℤ Unit := { N := 2, pulses := [pX, pX], dims := [2, 2] }

/-- A processor whose single grid is a chain of near-duplicates:
`[0, 0.9e-10, 1.8e-10]` with consecutive gaps of `0.9e-10`. -/
def procC2cx : Processor ℤ Unit :=
  { N := 1, dims := [2],
    pulses := [{ qobj := 1, targets := [0],
                 tlist := some [0, 9 / 100000000000, 9 / 50000000000],
                 coeff := Coeff.sampled [1, 2, 3] }] }

/-- A processor with the two grids `[0, 1, 2]` and `[0, 1 + 1e-11, 2]`
of the merge example. -/
def procC2ex : Processor ℤ Unit :=
  { N := 2, dims := [2, 2],
    pulses := [{ qobj := 1, targets := [0], tlist := some [0, 1, 2],
                 coeff := Coeff.sampled [1, 1] },
               { qobj := 2, targets := [1],
                 tlist := some [0, 1 + 1 / 100000000000, 2],
                 coeff := Coeff.sampled [2, 2] }] }

/-- A processor whose single pulse has a callable/symbolic coefficient
and no time grid. -/
def procC7cx : Processor ℤ Unit :=
  { N := 1, dims := [2],
    pulses := [{ qobj := 3, targets := [0], tlist := none,
                 coeff := Coeff.func }] }

/-- A single step-function pulse over the grid `[0, 1/3]` with
coefficient `[5/7]` (both values chosen to make the 16-digit
quantisation of the text format visible). -/
def p9 : Pulse ℤ :=
  { qobj := 11, targets := [0], tlist := some [0, 1 / 3],
    coeff := Coeff.sampled [5 / 7] }

/-- The processor the persistence round trip is evaluated on. -/
def proc9 : Processor ℤ Unit := { N := 1, pulses := [p9], dims := [2] }

/-- The file `save_coeff(inctime=True)` writes for `proc9`: one line per
canonical grid point, time first, every value rounded to 16 fractional
digits. -/
def file9 : List (List ℚ) :=
  [[0, 7142857142857143 / 10 ^ 16],
   [3333333333333333 / 10 ^ 16, 7142857142857143 / 10 ^ 16]]

/-- The processor state after reading `file9` back with time included:
the quantised grid broadcast to the pulse and the quantised matrix row
assigned as its coefficient. -/
def proc9r : Processor ℤ Unit :=
  { proc9 with
    pulses := [{ p9 with
      tlist := some [0, 3333333333333333 / 10 ^ 16],
      coeff := Coeff.sampled [7142857142857143 / 10 ^ 16,
                              7142857142857143 / 10 ^ 16] }] }

/-- A concrete noise pipeline satisfying the reachability frame: it
returns its arguments unchanged. -/
def idNoise : Store ℤ → List ℕ → Bool → Store ℤ × List ℕ :=
  fun s ids _ => (s, ids)

/-- A concrete stand-in for the numerical solver dispatch, used to
instantiate `run_state`. -/
def numRunZ : Processor ℤ Unit → Bool → String → List String → Option ℤ →
    Except PyError (RunRet ℤ Unit) :=
  fun _ _ _ _ _ => .ok (RunRet.solverResult ())

/-- A valid single-pulse processor with a numeric coefficient, for the
analytical-evolution witness. -/
def procC1w : Processor ℤ Unit :=
  { N := 1, dims := [2],
    pulses := [{ qobj := 5, targets := [0], tlist := some [0, 1],
                 coeff := Coeff.sampled [2] }],
    drift := [{ qobj := 4, targets := [0] }] }

/-- An empty three-qubit processor, for the cyclic-permutation
witnesses. -/
def procC4w : Processor ℤ Unit := { N := 3, dims := [2, 2, 2] }

/-- A processor whose single pulse has a callable/symbolic coefficient
and a time grid (so validation reaches `len(pulse.coeff)`). -/
def procC7f : Processor ℤ Unit :=
  { N := 1, dims := [2],
    pulses := [{ qobj := 3, targets := [0], tlist := some [0, 1],
                 coeff := Coeff.func }] }

/-- A processor exercising all three in-scope coefficient shapes of the
resampler: absent grid-and-coefficient, boolean constant and numeric. -/
def procC7w : Processor ℤ Unit :=
  { N := 2, dims := [2, 2],
    pulses := [{ qobj := 1, targets := [0] },
               { qobj := 2, targets := [1], coeff := Coeff.const true },
               { qobj := 3, targets := [0], tlist := some [0, 2],
                 coeff := Coeff.sampled [4] }] }

/-- A well-shaped step-function pulse. -/
def pC3ok : Pulse ℤ :=
  { qobj := 1, targets := [0], tlist := some [0, 1],
    coeff := Coeff.sampled [1] }

/-- A step-function pulse whose coefficient length 3 fits neither
`len(tlist) - 1` nor `len(tlist)` for its grid of length 2. -/
def pC3bad : Pulse ℤ :=
  { qobj := 2, targets := [0], tlist := some [0, 1],
    coeff := Coeff.sampled [1, 2, 3] }

/-- A processor with an invalid second pulse (numeric coefficient of the
wrong length), for the validator witness. -/
def procC3w : Processor ℤ Unit :=
  { N := 1, dims := [2], pulses := [pC3ok, pC3bad] }

/-- A processor whose second pulse has a callable/symbolic coefficient
and no time grid, behind a well-shaped pulse. -/
def procC7g : Processor ℤ Unit :=
  { N := 1, dims := [2],
    pulses := [pC3ok,
               { qobj := 5, targets := [0], tlist := none,
                 coeff := Coeff.func }] }

/-- A two-pulse store for the frame witness. -/
def storeC5 : Store ℤ := [pX, { pX with qobj := 2, label := some "y" }]

/-- The reference processor owning both pulses of `storeC5`; its drift
object has an unrelated identity. -/
def refProcC5 : RefProcessor := { pulseRefs := [0, 1], driftRef := 6 }

/-! ## Shared lemmas -/

lemma diffMaskKeep_zip_eq_adjKeep (tol prev : ℚ) (xs : List ℚ) :
    ((xs.zip (prev :: xs)).filter (fun p => tol < p.1 - p.2)).map (fun p => p.1) =
      adjKeep tol prev xs := by
  induction xs generalizing prev with
  | nil => rfl
  | cons y ys ih =>
    simp only [List.zip_cons_cons, List.filter_cons, adjKeep]
    by_cases h : tol < y - prev
    · simp [h, ih y]
    · simp [h, ih y]

lemma diffMaskKeep_eq_adjCollapse (tol : ℚ) (l : List ℚ) :
    diffMaskKeep tol l = adjCollapse tol l := by
  cases l with
  | nil => rfl
  | cons x xs =>
    simp only [diffMaskKeep, adjCollapse]
    exact congrArg (x :: ·) (diffMaskKeep_zip_eq_adjKeep tol x xs)

lemma valid_aux_ok_iff {Op : Type} (ps : List (Pulse Op)) (i : ℕ) :
    _is_pulses_valid_aux ps i = .ok true ↔ ps.all codeShapeOk = true := by
  induction ps generalizing i with
  | nil => simp [_is_pulses_valid_aux]
  | cons p ps ih =>
    cases hc : p.coeff with
    | off => simp [_is_pulses_valid_aux, hc, codeShapeOk, List.all_cons, ih]
    | const b => simp [_is_pulses_valid_aux, hc, codeShapeOk, List.all_cons, ih]
    | func =>
      cases ht : p.tlist <;>
        simp [_is_pulses_valid_aux, hc, ht, codeShapeOk, List.all_cons]
    | sampled c =>
      cases ht : p.tlist with
      | none => simp [_is_pulses_valid_aux, hc, ht, codeShapeOk, List.all_cons]
      | some tl =>
        by_cases hs : p.spline_kind = "step_func"
        · by_cases hlen : c.length = tl.length - 1 ∨ c.length = tl.length
          · simp [_is_pulses_valid_aux, hc, ht, hs, hlen, codeShapeOk, List.all_cons, ih]
          · simp [_is_pulses_valid_aux, hc, ht, hs, hlen, codeShapeOk, List.all_cons]
        · by_cases hlen : c.length = tl.length
          · simp [_is_pulses_valid_aux, hc, ht, hs, hlen, codeShapeOk, List.all_cons, ih]
          · simp [_is_pulses_valid_aux, hc, ht, hs, hlen, codeShapeOk, List.all_cons]

lemma valid_aux_append {Op : Type} (pre rest : List (Pulse Op)) (i : ℕ)
    (hpre : pre.all codeShapeOk = true) :
    _is_pulses_valid_aux (pre ++ rest) i =
      _is_pulses_valid_aux rest (i + pre.length) := by
  induction pre generalizing i with
  | nil => simp [_is_pulses_valid_aux]
  | cons p ps ih =>
    simp only [List.all_cons, Bool.and_eq_true] at hpre
    obtain ⟨h1, h2⟩ := hpre
    have hstep : _is_pulses_valid_aux ((p :: ps) ++ rest) i =
        _is_pulses_valid_aux (ps ++ rest) (i + 1) := by
      cases hc : p.coeff with
      | off => simp [_is_pulses_valid_aux, hc]
      | const b => simp [_is_pulses_valid_aux, hc]
      | func => simp [codeShapeOk, hc] at h1
      | sampled c =>
        cases ht : p.tlist with
        | none => simp [codeShapeOk, hc, ht] at h1
        | some tl =>
          by_cases hs : p.spline_kind = "step_func"
          · have hlen : c.length = tl.length - 1 ∨ c.length = tl.length := by
              simpa [codeShapeOk, hc, ht, hs] using h1
            simp [_is_pulses_valid_aux, hc, ht, hs, hlen]
          · have hlen : c.length = tl.length := by
              simpa [codeShapeOk, hc, ht, hs] using h1
            simp [_is_pulses_valid_aux, hc, ht, hs, hlen]
    have harith : i + 1 + ps.length = i + (p :: ps).length := by
      simp only [List.length_cons]
      omega
    rw [hstep, ih (i + 1) h2, harith]

lemma valid_aux_err_head {Op : Type} (p : Pulse Op) (rest : List (Pulse Op))
    (i : ℕ) (c : List ℚ) (hc : p.coeff = Coeff.sampled c)
    (hbad : codeShapeOk p = false) :
    _is_pulses_valid_aux (p :: rest) i =
      .error (.valueError (sampledViolationMsg p i)) := by
  cases ht : p.tlist with
  | none => simp [_is_pulses_valid_aux, hc, ht, sampledViolationMsg]
  | some tl =>
    by_cases hs : p.spline_kind = "step_func"
    · have hlen : ¬(c.length = tl.length - 1 ∨ c.length = tl.length) := by
        intro hcon
        simp [codeShapeOk, hc, ht, hs, hcon] at hbad
      simp [_is_pulses_valid_aux, hc, ht, hs, hlen, sampledViolationMsg]
    · have hlen : ¬c.length = tl.length := by
        intro hcon
        simp [codeShapeOk, hc, ht, hs, hcon] at hbad
      simp [_is_pulses_valid_aux, hc, ht, hs, hlen, sampledViolationMsg]

lemma shapeOk_eq_of_scope {Op : Type} (p : Pulse Op)
    (h1 : p.coeff ≠ Coeff.func)
    (h2 : p.spline_kind = "step_func" ∨ p.spline_kind = "cubic") :
    codeShapeOk p = claimShapeOk p := by
  cases hc : p.coeff with
  | off => simp [codeShapeOk, claimShapeOk, hc]
  | const b => simp [codeShapeOk, claimShapeOk, hc]
  | func => exact absurd hc h1
  | sampled c =>
    cases ht : p.tlist with
    | none => simp [codeShapeOk, claimShapeOk, hc, ht]
    | some tl =>
      rcases h2 with hs | hs <;> simp [codeShapeOk, claimShapeOk, hc, ht, hs]

lemma all_shape_congr {Op : Type} (ps : List (Pulse Op))
    (hwt : ∀ p ∈ ps, p.coeff ≠ Coeff.func)
    (hk : ∀ p ∈ ps, p.spline_kind = "step_func" ∨ p.spline_kind = "cubic") :
    ps.all codeShapeOk = ps.all claimShapeOk := by
  induction ps with
  | nil => rfl
  | cons p ps ih =>
    simp only [List.all_cons]
    rw [shapeOk_eq_of_scope p (hwt p (by simp)) (hk p (by simp)),
      ih (fun q hq => hwt q (by simp [hq])) (fun q hq => hk q (by simp [hq]))]

lemma sampled_tlist_ne_none {Op : Type} (ps : List (Pulse Op)) (i : ℕ)
    (p : Pulse Op) (c : List ℚ)
    (hok : _is_pulses_valid_aux ps i = .ok true) (hp : p ∈ ps)
    (hc : p.coeff = Coeff.sampled c) : p.tlist ≠ none := by
  have hall := (valid_aux_ok_iff ps i).mp hok
  rw [List.all_eq_true] at hall
  have hshape := hall p hp
  intro ht
  simp [codeShapeOk, hc, ht] at hshape

lemma get_full_tlist_eq_some {Op ν : Type} (proc : Processor Op ν) (tol : ℚ)
    (hval : _is_pulses_valid proc = .ok true) (hne : proc.pulses ≠ [])
    (hnum : ∀ p ∈ proc.pulses, ∃ c, p.coeff = Coeff.sampled c) :
    get_full_tlist proc tol =
      some (diffMaskKeep tol
        (npUnique (proc.pulses.filterMap Pulse.tlist).flatten)) := by
  unfold get_full_tlist
  have hie : (proc.pulses.filterMap Pulse.tlist).isEmpty = false := by
    cases hps : proc.pulses with
    | nil => exact absurd hps hne
    | cons p ps =>
      obtain ⟨c, hc⟩ := hnum p (by rw [hps]; simp)
      have hts : p.tlist ≠ none := by
        refine sampled_tlist_ne_none (p :: ps) 0 p c ?_ (by simp) hc
        rw [_is_pulses_valid, hps] at hval
        exact hval
      cases htl : p.tlist with
      | none => exact absurd htl hts
      | some tl => simp [List.filterMap_cons, htl]
  simp [hie]

lemma rowsMap_all_sampled {Op : Type} (ext : Ext Op) (sk : String) (u : List ℚ)
    (ps : List (Pulse Op))
    (hk : sk = "step_func" ∨ sk = "cubic")
    (hnum : ∀ p ∈ ps, ∃ c, p.coeff = Coeff.sampled c) :
    rowsMap ext sk (some u) ps =
      .ok (ps.map (fun p => ext.fillCoeff (sampledList p.coeff) (p.tlist.getD []) u
        (decide (sk = "step_func")))) := by
  induction ps with
  | nil => simp [rowsMap]
  | cons p ps ih =>
    obtain ⟨c, hc⟩ := hnum p (by simp)
    have hrow : fullCoeffRow ext sk (some u) p =
        .ok (ext.fillCoeff c (p.tlist.getD []) u (decide (sk = "step_func"))) := by
      rcases hk with hs | hs <;> simp +decide [fullCoeffRow, hc, hs]
    have ihr := ih (fun q hq => hnum q (by simp [hq]))
    simp [rowsMap, hrow, ihr, sampledList, hc, bind, Except.bind]

lemma get_full_coeffs_all_sampled {Op ν : Type} (ext : Ext Op)
    (proc : Processor Op ν) (u : List ℚ)
    (hval : _is_pulses_valid proc = .ok true)
    (hne : proc.pulses ≠ [])
    (hk : proc.spline_kind = "step_func" ∨ proc.spline_kind = "cubic")
    (hnum : ∀ p ∈ proc.pulses, ∃ c, p.coeff = Coeff.sampled c)
    (hu : get_full_tlist proc (1 / 10000000000) = some u) :
    get_full_coeffs ext proc none = .ok (.mat (resampledRows ext proc u)) := by
  have hie : proc.pulses.isEmpty = false := by
    cases hps : proc.pulses with
    | nil => exact absurd hps hne
    | cons p ps => rfl
  rw [get_full_coeffs, hval]
  simp only [hie, hu, resampledRows,
    rowsMap_all_sampled ext proc.spline_kind u proc.pulses hk hnum]
  rfl

lemma rowsMap_scope {Op : Type} (ext : Ext Op) (sk : String) (u : List ℚ)
    (ps : List (Pulse Op))
    (hk : sk = "step_func" ∨ sk = "cubic")
    (hscope : ∀ p ∈ ps, p.coeff ≠ Coeff.func ∧
      (p.coeff = Coeff.off → p.tlist = none)) :
    rowsMap ext sk (some u) ps = .ok (ps.map (idealRow ext sk u)) := by
  induction ps with
  | nil => simp [rowsMap]
  | cons p ps ih =>
    have hrow : fullCoeffRow ext sk (some u) p = .ok (idealRow ext sk u p) := by
      obtain ⟨hnf, hofft⟩ := hscope p (by simp)
      cases hc : p.coeff with
      | off =>
        have ht := hofft hc
        simp [fullCoeffRow, idealRow, hc, ht, pyLen, bind, Except.bind]
      | const b =>
        simp +decide [fullCoeffRow, idealRow, hc, pyLen, bind, Except.bind]
      | func => exact absurd hc hnf
      | sampled c =>
        rcases hk with hs | hs <;> simp +decide [fullCoeffRow, idealRow, hc, hs]
    have ihr := ih (fun q hq => hscope q (by simp [hq]))
    simp [rowsMap, hrow, ihr, bind, Except.bind]

/-! ## Claim theorems -/

/-- C2 counterexample: on the single grid `[0, 0.9e-10, 1.8e-10]`, the
code (which compares each point with its immediate predecessor in the
sorted union) collapses the whole chain to `[0]`, while the merge
described by the claim (gap measured to the previous RETAINED point)
keeps `1.8e-10`; so the claimed output differs from the computed one at
this input. -/
theorem C2_counterexample :
    get_full_tlist procC2cx (1 / 10000000000) = some [0] ∧
    specRetainedMerge (1 / 10000000000)
      (procC2cx.pulses.filterMap Pulse.tlist) = [0, 9 / 50000000000] ∧
    get_full_tlist procC2cx (1 / 10000000000) ≠
      some (specRetainedMerge (1 / 10000000000)
        (procC2cx.pulses.filterMap Pulse.tlist)) := by
  refine ⟨?_, ?_, ?_⟩ <;>
    norm_num [get_full_tlist, procC2cx, diffMaskKeep, specRetainedMerge,
      retainedKeep, npUnique, pySort, insertAsc, dedupAdj,
      List.filterMap_cons, List.flatten]

/-- C2 (amended): `get_full_tlist` merges the grids of all pulses that
have one into the sorted union in which a point is dropped exactly when
its gap to the immediately preceding point of the sorted union (whether
or not that point was retained) is at or below the tolerance, the first
point always being retained; merging `[0, 1, 2]` and `[0, 1 + 1e-11, 2]`
with the default tolerance `1e-10` yields exactly `[0, 1, 2]` of length
3, and the result is `None` when no pulse has a grid. -/
theorem C2_get_full_tlist_merge :
    (∀ (Op ν : Type) (proc : Processor Op ν) (tol : ℚ),
      get_full_tlist proc tol =
        if (proc.pulses.filterMap Pulse.tlist).isEmpty then none
        else some (adjCollapse tol
          (npUnique (proc.pulses.filterMap Pulse.tlist).flatten))) ∧
    get_full_tlist procC2ex (1 / 10000000000) = some [0, 1, 2] ∧
    ((get_full_tlist procC2ex (1 / 10000000000)).getD []).length = 3 ∧
    (∀ (Op ν : Type) (proc : Processor Op ν) (tol : ℚ),
      get_full_tlist
        { proc with pulses := proc.pulses.map (fun p => { p with tlist := none }) }
        tol = none) := by
  refine ⟨?_, ?_, ?_, ?_⟩
  · intro Op ν proc tol
    unfold get_full_tlist
    by_cases h : (proc.pulses.filterMap Pulse.tlist).isEmpty <;>
      simp [h, diffMaskKeep_eq_adjCollapse]
  · norm_num [get_full_tlist, procC2ex, diffMaskKeep, npUnique, pySort,
      insertAsc, dedupAdj, List.filterMap_cons, List.flatten]
  · norm_num [get_full_tlist, procC2ex, diffMaskKeep, npUnique, pySort,
      insertAsc, dedupAdj, List.filterMap_cons, List.flatten]
  · intro Op ν proc tol
    have hnone : (proc.pulses.map
        (fun p => { p with tlist := none : Pulse Op })).filterMap Pulse.tlist = [] := by
      rw [List.filterMap_eq_nil_iff]
      intro a ha
      obtain ⟨p, _, hpa⟩ := List.mem_map.mp ha
      rw [← hpa]
    simp [get_full_tlist, hnone]

/-- C3: for every pulse list whose coefficients fit the data model (no
unsized coefficients) and whose kinds are `step_func` or `cubic`, the
validator skips pulses with absent or boolean coefficients; every other
pulse needs a present grid and a coefficient length of `len(tlist) - 1`
or `len(tlist)` for `step_func` and exactly `len(tlist)` for `cubic`;
the first violation raises a validation `ValueError` whose message
embeds the offending pulse's position. -/
theorem C3_validator {Op ν : Type} (proc : Processor Op ν)
    (hwt : ∀ p ∈ proc.pulses, p.coeff ≠ Coeff.func)
    (hk : ∀ p ∈ proc.pulses,
      p.spline_kind = "step_func" ∨ p.spline_kind = "cubic") :
    (_is_pulses_valid proc = .ok true ↔
      proc.pulses.all claimShapeOk = true) ∧
    (∀ pre p post c, proc.pulses = pre ++ p :: post →
      pre.all claimShapeOk = true → p.coeff = Coeff.sampled c →
      claimShapeOk p = false →
      _is_pulses_valid proc =
        .error (.valueError (sampledViolationMsg p pre.length))) := by
  constructor
  · rw [_is_pulses_valid, valid_aux_ok_iff, all_shape_congr proc.pulses hwt hk]
  · intro pre p post c hsplit hpre hc hbad
    have hpmem : p ∈ proc.pulses := by
      rw [hsplit]
      exact List.mem_append.mpr (Or.inr (List.mem_cons_self p post))
    have hpremem : ∀ q ∈ pre, q ∈ proc.pulses := fun q hq => by
      rw [hsplit]
      exact List.mem_append.mpr (Or.inl hq)
    have hpre2 : pre.all codeShapeOk = true := by
      rw [all_shape_congr pre (fun q hq => hwt q (hpremem q hq))
        (fun q hq => hk q (hpremem q hq))]
      exact hpre
    have hbad2 : codeShapeOk p = false := by
      rw [shapeOk_eq_of_scope p (hwt p hpmem) (hk p hpmem)]
      exact hbad
    rw [_is_pulses_valid, hsplit, valid_aux_append pre (p :: post) 0 hpre2,
      valid_aux_err_head p post (0 + pre.length) c hc hbad2]
    norm_num

/-- Witness for C3 on a concrete two-pulse processor whose second pulse
has a numeric coefficient of an invalid length: the hypotheses hold, the
validator rejects, and the error message carries the index 1. -/
theorem C3_validator_holds :
    (_is_pulses_valid procC3w = .ok true ↔
      procC3w.pulses.all claimShapeOk = true) ∧
    _is_pulses_valid procC3w = .error (.valueError (stepMsg 1)) := by
  obtain ⟨h1, h2⟩ := C3_validator procC3w (by decide) (by decide)
  refine ⟨h1, ?_⟩
  have h3 := h2 [pC3ok] pC3bad [] [1, 2, 3] rfl (by decide) rfl (by decide)
  exact h3

/-- C1: for every processor whose pulses pass validation and have
numeric coefficients (with a nonempty pulse list and one of the two
supported interpolation kinds), `run_analytically` computes, for each
adjacent pair `(t_n, t_{n+1})` of the canonical grid, the instantaneous
generator as the drift Hamiltonian plus the sum over pulses of the
resampled coefficient sampled at the left endpoint `t_n` (regardless of
the configured interpolation kind) times the expanded control operator,
and appends `eliminate_auxillary_modes(expm(-1j * G_n * (t_{n+1} - t_n)))`
to a list seeded with the initial state when one is given. -/
theorem C1_run_analytically {Op ν : Type} (ext : Ext Op)
    (proc : Processor Op ν) (init_state : Option Op)
    (hval : _is_pulses_valid proc = .ok true)
    (hne : proc.pulses ≠ [])
    (hk : proc.spline_kind = "step_func" ∨ proc.spline_kind = "cubic")
    (hnum : ∀ p ∈ proc.pulses, ∃ c, p.coeff = Coeff.sampled c) :
    get_full_tlist proc (1 / 10000000000) ≠ none ∧
    run_analytically ext proc init_state =
      .ok (init_state.toList ++
        (List.range (((get_full_tlist proc (1 / 10000000000)).getD []).length - 1)).map
          (analyticStep ext proc ((get_full_tlist proc (1 / 10000000000)).getD [])
            (resampledRows ext proc
              ((get_full_tlist proc (1 / 10000000000)).getD [])))) := by
  have hu := get_full_tlist_eq_some proc (1 / 10000000000) hval hne hnum
  have hc := get_full_coeffs_all_sampled ext proc
    (diffMaskKeep (1 / 10000000000)
      (npUnique (proc.pulses.filterMap Pulse.tlist).flatten))
    hval hne hk hnum hu
  constructor
  · rw [hu]
    simp
  · simp only [run_analytically, hc, hu, bind, Except.bind, Option.getD_some,
      analyticStep, CoeffsArr.entry]
    cases init_state <;> rfl

/-- Witness for C1: a valid single-pulse processor with a numeric
coefficient, evaluated with the concrete algebra `extZ` and an initial
state. -/
theorem C1_run_analytically_holds :
    _is_pulses_valid procC1w = .ok true ∧
    run_analytically extZ procC1w (some 100) =
      .ok ((some (100 : ℤ)).toList ++
        (List.range (((get_full_tlist procC1w (1 / 10000000000)).getD []).length - 1)).map
          (analyticStep extZ procC1w ((get_full_tlist procC1w (1 / 10000000000)).getD [])
            (resampledRows extZ procC1w
              ((get_full_tlist procC1w (1 / 10000000000)).getD [])))) := by
  refine ⟨rfl, ?_⟩
  refine (C1_run_analytically extZ procC1w (some 100) rfl (by decide)
    (Or.inl rfl) ?_).2
  intro p hp
  simp only [procC1w] at hp
  rw [List.mem_singleton] at hp
  subst hp
  exact ⟨[2], rfl⟩

/-- C4: `add_control` with `cyclic_permutation=True` and target list `T`
on an `N`-subsystem processor appends exactly `N` new (turned-off)
pulses, the `i`-th having target list `[(t + i) mod N for t in T]`, in
order of `i`. -/
theorem C4_add_control_cyclic {Op ν : Type} (ext : Ext Op)
    (proc : Processor Op ν) (q : Op) (T : List ℤ) (lab : Option String)
    (hherm : ext.isherm q = true) :
    add_control ext proc q (some T) true lab =
      .ok { proc with pulses := proc.pulses ++
        (List.range proc.N.toNat).map (fun i =>
          { qobj := q, targets := T.map (fun t => (t + Int.ofNat i) % proc.N),
            tlist := none, coeff := Coeff.off,
            spline_kind := proc.spline_kind, label := lab }) } := by
  simp only [add_control, hherm, Bool.true_eq_false, if_false, ite_false,
    if_true, ite_true]

/-- Witness for C4: on the empty three-qubit processor, adding a control
on targets `[0, 1]` cyclically yields exactly the three pulses with
target lists `[0, 1]`, `[1, 2]`, `[2, 0]`, in that order. -/
theorem C4_add_control_cyclic_holds :
    extZ.isherm 9 = true ∧
    add_control extZ procC4w 9 (some [0, 1]) true (some "g") =
      .ok { procC4w with pulses :=
        [{ qobj := 9, targets := [0, 1], tlist := none, coeff := Coeff.off,
           spline_kind := "step_func", label := some "g" },
         { qobj := 9, targets := [1, 2], tlist := none, coeff := Coeff.off,
           spline_kind := "step_func", label := some "g" },
         { qobj := 9, targets := [2, 0], tlist := none, coeff := Coeff.off,
           spline_kind := "step_func", label := some "g" }] } := by
  refine ⟨rfl, (C4_add_control_cyclic extZ procC4w 9 [0, 1] (some "g") rfl).trans ?_⟩
  rfl

/-- C10: `add_control` with `cyclic_permutation=True` and a label gives
all `N` created pulses exactly that label: the target-suffixed label
computed internally is dead code, so the `N` cyclic copies are
indistinguishable by label. -/
theorem C10_cyclic_label {Op ν : Type} (ext : Ext Op)
    (proc : Processor Op ν) (q : Op) (T : List ℤ) (L : String)
    (hherm : ext.isherm q = true) :
    (match add_control ext proc q (some T) true (some L) with
     | .ok p2 => (p2.pulses.drop proc.pulses.length).map Pulse.label
     | .error _ => []) = List.replicate proc.N.toNat (some L) := by
  simp only [add_control, hherm, Bool.true_eq_false, if_false, ite_false,
    if_true, ite_true, List.drop_left, List.map_map]
  have hconst : (List.range proc.N.toNat).map (fun _ => some L) =
      List.replicate proc.N.toNat (some L) := by
    simp [List.map_const', List.length_range]
  exact hconst

/-- Witness for C10: the three cyclic copies on the three-qubit
processor all carry the plain label `"g"`. -/
theorem C10_cyclic_label_holds :
    extZ.isherm 9 = true ∧
    (match add_control extZ procC4w 9 (some [0, 1]) true (some "g") with
     | .ok p2 => (p2.pulses.drop procC4w.pulses.length).map Pulse.label
     | .error _ => []) = List.replicate (3 : ℤ).toNat (some "g") := by
  exact ⟨rfl, C10_cyclic_label extZ procC4w 9 [0, 1] "g" rfl⟩

/-- C5: `get_noisy_pulses` never mutates or aliases the stored pulse
list: for any noise pipeline obeying the Python reachability frame, the
arena entries of the stored pulses (their contents and identities) are
unchanged after the call, and no identity in the returned list is a
stored pulse identity — the computation runs on a deep copy. -/
theorem C5_get_noisy_pulses_frame {Op : Type} [Inhabited Op] (s : Store Op)
    (proc : RefProcessor)
    (f : Store Op → List ℕ → Bool → Store Op × List ℕ)
    (device_noise drift : Bool)
    (hf : NoiseFrame f)
    (hrefs : ∀ i ∈ proc.pulseRefs, i < s.length)
    (hdrift : proc.driftRef ∉ proc.pulseRefs) :
    proc.pulseRefs.map
        (fun i => (get_noisy_pulses s proc f device_noise drift).1.getD i default) =
      proc.pulseRefs.map (fun i => s.getD i default) ∧
    (get_noisy_pulses s proc f device_noise drift).2.filter
        (fun o => decide (o ∈ proc.pulseRefs)) = [] := by
  obtain ⟨hlen, hkeep, hout⟩ :=
    hf (s ++ proc.pulseRefs.map (fun i => s.getD i default))
      (List.range' s.length proc.pulseRefs.length) device_noise
  have hcop : ∀ o ∈ List.range' s.length proc.pulseRefs.length, s.length ≤ o := by
    intro o ho
    exact (List.mem_range'_1.mp ho).1
  have hs1len : s.length ≤
      (s ++ proc.pulseRefs.map (fun i => s.getD i default)).length := by
    simp
  constructor
  · refine List.map_congr_left ?_
    intro i hi
    have hilt := hrefs i hi
    have hnc : i ∉ List.range' s.length proc.pulseRefs.length := by
      intro hc
      exact absurd hilt (not_lt.mpr (hcop i hc))
    show (f (s ++ proc.pulseRefs.map (fun j => s.getD j default))
        (List.range' s.length proc.pulseRefs.length) device_noise).1.getD i default =
      s.getD i default
    rw [hkeep i (lt_of_lt_of_le hilt hs1len) hnc]
    exact List.getD_append _ _ _ _ hilt
  · rw [List.filter_eq_nil_iff]
    intro o ho
    simp only [get_noisy_pulses, deepcopyRefs, List.mem_append] at ho
    simp only [decide_eq_true_eq]
    rcases ho with ho | ho
    · have hor := hout o ho
      have hge : s.length ≤ o := by
        rcases hor with h | h
        · exact hcop o h
        · exact le_trans hs1len h
      intro hmem
      exact absurd (hrefs o hmem) (not_lt.mpr hge)
    · cases drift with
      | false => simp at ho
      | true =>
        simp only [if_true, List.mem_singleton] at ho
        rw [ho]
        exact hdrift

/-- Witness for C5: the identity pipeline on a concrete two-pulse store
leaves the stored entries untouched, and the returned identities (the
two fresh copies plus the drift) avoid the stored ones. -/
theorem C5_get_noisy_pulses_frame_holds :
    refProcC5.pulseRefs.map
        (fun i => (get_noisy_pulses storeC5 refProcC5 idNoise true true).1.getD i default) =
      refProcC5.pulseRefs.map (fun i => storeC5.getD i default) ∧
    (get_noisy_pulses storeC5 refProcC5 idNoise true true).2.filter
        (fun o => decide (o ∈ refProcC5.pulseRefs)) = [] := by
  refine C5_get_noisy_pulses_frame storeC5 refProcC5 idNoise true true ?_
    (by decide) (by decide)
  intro s ids dn
  refine ⟨le_refl _, ?_, ?_⟩
  · intro j _ _
    rfl
  · intro o ho
    exact Or.inl ho

/-- C6 (code bug): removing by label deletes from the list while a
Python iterator walks it, so the pulse shifted into a deleted slot is
never examined; on two adjacent pulses labelled `"x"`,
`remove_pulse(label="x")` leaves one pulse labelled `"x"` behind instead
of removing every match. -/
theorem C6_remove_label_bug :
    (match remove_pulse procC6 none (some "x") with
     | .ok p2 => p2.pulses.map Pulse.label
     | .error _ => []) = [some "x"] := by
  simp [remove_pulse, removeLabelAux, procC6, pX]

/-- C7 counterexample: a pulse whose coefficient is a callable/symbolic
object and that has no time grid makes `get_full_coeffs` raise the
missing-grid validation `ValueError`, not a type error as the claim
states. -/
theorem C7_counterexample :
    get_full_coeffs extZ procC7cx none =
      .error (.valueError (tlistMsg 0)) ∧
    isTypeErr (get_full_coeffs extZ procC7cx none) = false :=
  ⟨rfl, rfl⟩

/-- C7 (amended): for a pulse whose coefficient is neither absent, nor
boolean, nor a numeric array, `get_full_coeffs` raises an error — a
`TypeError` (from `len()` of the unsized coefficient during validation)
when the pulse has a time grid, and the missing-grid validation
`ValueError` naming the pulse's position when it has none; absent
grid-and-coefficient yields an all-zero row and a boolean coefficient an
all-ones (`true`) or all-zero (`false`) row of canonical-grid length. -/
theorem C7_get_full_coeffs_amended :
    (∀ (Op ν : Type) (ext : Ext Op) (proc : Processor Op ν)
      (ftArg : Option (List ℚ)) (pre : List (Pulse Op)) (p : Pulse Op)
      (post : List (Pulse Op)),
      proc.pulses = pre ++ p :: post → pre.all codeShapeOk = true →
      p.coeff = Coeff.func → p.tlist ≠ none →
      get_full_coeffs ext proc ftArg = .error (.typeError noLenMsg)) ∧
    (∀ (Op ν : Type) (ext : Ext Op) (proc : Processor Op ν)
      (ftArg : Option (List ℚ)) (pre : List (Pulse Op)) (p : Pulse Op)
      (post : List (Pulse Op)),
      proc.pulses = pre ++ p :: post → pre.all codeShapeOk = true →
      p.coeff = Coeff.func → p.tlist = none →
      get_full_coeffs ext proc ftArg =
        .error (.valueError (tlistMsg pre.length))) ∧
    (∀ (Op ν : Type) (ext : Ext Op) (proc : Processor Op ν) (u : List ℚ),
      _is_pulses_valid proc = .ok true →
      get_full_tlist proc (1 / 10000000000) = some u →
      (proc.spline_kind = "step_func" ∨ proc.spline_kind = "cubic") →
      (∀ p ∈ proc.pulses, p.coeff ≠ Coeff.func ∧
        (p.coeff = Coeff.off → p.tlist = none)) →
      get_full_coeffs ext proc none =
        .ok (.mat (proc.pulses.map (idealRow ext proc.spline_kind u)))) := by
  refine ⟨?_, ?_, ?_⟩
  · intro Op ν ext proc ftArg pre p post hsplit hpre hc ht
    cases htl : p.tlist with
    | none => exact absurd htl ht
    | some tl =>
      have hval : _is_pulses_valid proc = .error (.typeError noLenMsg) := by
        rw [_is_pulses_valid, hsplit, valid_aux_append pre (p :: post) 0 hpre]
        simp [_is_pulses_valid_aux, hc, htl]
      simp [get_full_coeffs, hval, bind, Except.bind]
  · intro Op ν ext proc ftArg pre p post hsplit hpre hc ht
    have hval : _is_pulses_valid proc =
        .error (.valueError (tlistMsg pre.length)) := by
      rw [_is_pulses_valid, hsplit, valid_aux_append pre (p :: post) 0 hpre]
      simp [_is_pulses_valid_aux, hc, ht]
    simp [get_full_coeffs, hval, bind, Except.bind]
  · intro Op ν ext proc u hval hu hk hscope
    have hne : proc.pulses ≠ [] := by
      intro hnil
      rw [get_full_tlist] at hu
      simp [hnil] at hu
    have hie : proc.pulses.isEmpty = false := by
      cases hps : proc.pulses with
      | nil => exact absurd hps hne
      | cons p ps => rfl
    rw [get_full_coeffs, hval]
    simp only [hie, hu, rowsMap_scope ext proc.spline_kind u proc.pulses hk hscope]
    rfl

/-- Witness for C7: the three amended behaviours evaluated concretely —
a callable coefficient with a grid gives the `TypeError`, a callable
coefficient without a grid (behind one well-shaped pulse) gives the
positional `ValueError`, and an off/boolean/numeric trio resamples to
the described rows. -/
theorem C7_get_full_coeffs_amended_holds :
    get_full_coeffs extZ procC7f none = .error (.typeError noLenMsg) ∧
    get_full_coeffs extZ procC7g none = .error (.valueError (tlistMsg 1)) ∧
    get_full_coeffs extZ procC7w none =
      .ok (.mat (procC7w.pulses.map (idealRow extZ "step_func" [0, 2]))) := by
  obtain ⟨h1, h2, h3⟩ := C7_get_full_coeffs_amended
  refine ⟨?_, ?_, ?_⟩
  · exact h1 ℤ Unit extZ procC7f none []
      { qobj := 3, targets := [0], tlist := some [0, 1], coeff := Coeff.func }
      [] rfl rfl rfl (by decide)
  · exact h2 ℤ Unit extZ procC7g none [pC3ok]
      { qobj := 5, targets := [0], tlist := none, coeff := Coeff.func }
      [] rfl (by decide) rfl rfl
  · refine h3 ℤ Unit extZ procC7w [0, 2] rfl ?_ (Or.inl rfl) (by decide)
    norm_num [get_full_tlist, procC7w, diffMaskKeep, npUnique, pySort,
      insertAsc, dedupAdj, List.filterMap_cons, List.flatten]

/-- C8: `run_state` with `analytical=True` while keyword options are
supplied or noise is configured raises an error immediately at the call
(the source line `raise warnings.warn(...)` raises a `TypeError`, since
`warnings.warn` returns `None`); with neither options nor noise it
delegates to `run_analytically`. -/
theorem C8_run_state_analytical {Op ν σ : Type} (ext : Ext Op)
    (numericalRun : Processor Op ν → Bool → String → List String → Option Op →
      Except PyError (RunRet Op σ))
    (proc : Processor Op ν) (s : Op) (states : Option Op) (noisy : Bool)
    (solver : String) (kwargs : List String) :
    ((kwargs ≠ [] ∨ proc.noise ≠ []) →
      run_state ext numericalRun proc (some s) true states noisy solver kwargs =
        .error (.typeError "exceptions must derive from BaseException")) ∧
    (kwargs = [] → proc.noise = [] →
      run_state ext numericalRun proc (some s) true states noisy solver kwargs =
        (run_analytically ext proc (some s)).map RunRet.props) := by
  have h1 : (Option.isNone (some s) && Option.isNone states) = false := by simp
  constructor
  · intro hbusy
    have hcond : (kwargs.isEmpty = false ∨ proc.noise.isEmpty = false) := by
      rcases hbusy with h | h
      · left
        cases kwargs with
        | nil => exact absurd rfl h
        | cons a l => rfl
      · right
        cases hps : proc.noise with
        | nil => exact absurd hps h
        | cons a l => rfl
    simp only [run_state, h1, Bool.false_eq_true, ite_false, ite_true,
      if_false, if_true]
    rw [if_pos hcond]
  · intro hkw hnz
    have h2 : (kwargs.isEmpty = false ∨ proc.noise.isEmpty = false) = False := by
      simp [hkw, hnz]
    simp only [run_state, h1, Bool.false_eq_true, ite_false, ite_true,
      if_false, if_true, h2]

/-- Witness for C8: with one configured noise object the analytical call
errors out; with no options and no noise it returns exactly the
`run_analytically` propagator list. -/
theorem C8_run_state_analytical_holds :
    run_state extZ numRunZ { procC1w with noise := [()] } (some 100) true none
        true "mesolve" [] =
      .error (.typeError "exceptions must derive from BaseException") ∧
    run_state extZ numRunZ procC1w (some 100) true none true "mesolve" [] =
      (run_analytically extZ procC1w (some (100 : ℤ))).map RunRet.props := by
  constructor
  · exact (C8_run_state_analytical extZ numRunZ { procC1w with noise := [()] }
      100 none true "mesolve" []).1 (Or.inr (by decide))
  · exact (C8_run_state_analytical extZ numRunZ procC1w
      100 none true "mesolve" []).2 rfl rfl

/-- C9 (code bug): the `inctime=True` persistence round trip on a
one-pulse processor reproduces the canonical grid (broadcast to the
pulse) and the resampled coefficient matrix within `1e-16` absolute
error, but the first component of the pair `read_coeff` returns is the
un-called bound method `self.get_full_tlist` (the source line lacks the
call parentheses), not the time list that the claim and the method's own
docstring promise. -/
theorem C9_roundtrip_bug :
    save_coeff extZ proc9 true = .ok file9 ∧
    read_coeff proc9 file9 true = .ok (proc9r,
      ReadRet.withTime ReadFst.boundMethodGetFullTlist
        (some [Coeff.sampled [7142857142857143 / 10 ^ 16,
                              7142857142857143 / 10 ^ 16]])) ∧
    withinTol ((proc9r.pulses.headD default).tlist.getD [])
      ((get_full_tlist proc9 (1 / 10000000000)).getD []) (1 / 10 ^ 16) = true ∧
    withinTol (sampledList (proc9r.pulses.headD default).coeff)
      [5 / 7, 5 / 7] (1 / 10 ^ 16) = true := by
  refine ⟨?_, rfl, ?_, ?_⟩
  · norm_num +decide [save_coeff, proc9, p9, file9, extZ, quantize16, round_eq,
      _is_pulses_valid, _is_pulses_valid_aux, get_full_coeffs, get_full_tlist,
      rowsMap, fullCoeffRow, diffMaskKeep, npUnique, pySort, insertAsc,
      dedupAdj, transposeMat, List.filterMap_cons, List.flatten, pyLen, bind,
      Except.bind, pure, Except.pure, List.replicate, List.head?, List.range,
      List.range_succ, List.zip, List.zipWith, Int.floor_eq_iff]
  · norm_num [withinTol, proc9r, proc9, p9, get_full_tlist, diffMaskKeep,
      npUnique, pySort, insertAsc, dedupAdj, List.filterMap_cons, List.flatten,
      List.all, abs]
  · norm_num [withinTol, proc9r, proc9, p9, sampledList, List.all, abs]

end QutipProc
